import Mathlib

/-!
Verification development for the marker core of `NanoVNASaver/Marker/Widget.py`
(class `Marker`): the frequency-resolution scan `findLocation`, the metric
population routine `updateLabels`, the frequency setter `setFrequency`, and the
field-selection state `fieldSelection` / `setFieldSelection`.

Modelling conventions:
* A Python `Datapoint` (frequency plus complex coefficient) is a structure with
  an integer frequency and rational real/imaginary parts.
* Python list indexing (which may raise `IndexError`, and which interprets
  negative indices from the end) is `pyIdx`, returning `Except String`.
* Fallible code paths are `Except String`; `Except.error` models an uncaught
  Python exception escaping the method.
* `findLocation` compares `frequency + stepsize/2` against data bounds; Python
  evaluates `stepsize/2` in floating point, which is exact for all realistic
  magnitudes (below 2^52), so the comparison is embedded as the equivalent
  doubled integer comparison `2*frequency + stepsize < 2*bound`.
-/

structure Datapoint where
  freq : Int
  re : ℚ
  im : ℚ
  deriving DecidableEq, Repr

def dummyPoint : Datapoint := ⟨0, 0, 0⟩

/-- Python list indexing `l[i]`: nonnegative indices from the front, negative
indices from the end, `IndexError` when out of range. -/
def pyIdx (l : List Datapoint) (i : Int) : Except String Datapoint :=
  if 0 ≤ i then
    match l.get? i.toNat with
    | some x => Except.ok x
    | none => Except.error "IndexError"
  else
    if 0 ≤ (l.length : Int) + i then
      match l.get? ((l.length : Int) + i).toNat with
      | some x => Except.ok x
      | none => Except.error "IndexError"
    else Except.error "IndexError"

/-- The three outputs of `Marker.findLocation`: `self.location`,
`self.frequencyInput.nextFrequency`, `self.frequencyInput.previousFrequency`.
Each uses `-1` as the "unset" sentinel, exactly as the source initializes
them at the top of `findLocation`. -/
structure FindResult where
  location : Int
  nextFrequency : Int
  previousFrequency : Int
  deriving DecidableEq, Repr

/-- The `for i, item in enumerate(data)` loop of `Marker.findLocation`
(`Widget.py` lines 258-272): `rest` is the not-yet-visited suffix of `data`,
`i` the current index, `minDistance` the running minimum distance. The
fall-through after the loop is the `[]` case (`location = datasize - 1`,
`previousFrequency = data[-2].freq`). -/
def scanLoop (frequency : Int) (data : List Datapoint) :
    List Datapoint → Nat → Int → Except String FindResult
  | [], _, _ =>
    match pyIdx data (-2) with
    | Except.error e => Except.error e
    | Except.ok penult =>
      Except.ok ⟨(data.length : Int) - 1, -1, penult.freq⟩
  | item :: rest, i, minDistance =>
    if |item.freq - frequency| ≤ minDistance then
      scanLoop frequency data rest (i + 1) |item.freq - frequency|
    else
      let nextF : Int := if i < data.length then item.freq else -1
      if 0 ≤ (i : Int) - 2 then
        match pyIdx data ((i : Int) - 2) with
        | Except.error e => Except.error e
        | Except.ok prev =>
          Except.ok ⟨(i : Int) - 1, nextF, prev.freq⟩
      else
        Except.ok ⟨(i : Int) - 1, nextF, -1⟩

/-- `Marker.findLocation` (`Widget.py` lines 236-272) as a function from the
marker's target frequency and the supplied data to the triple of outputs.
The source's float comparison `frequency + stepsize/2 < bound` is embedded as
the exact doubled integer comparison. -/
def findLocation (frequency : Int) (data : List Datapoint) :
    Except String FindResult :=
  if frequency = 0 then Except.ok ⟨-1, -1, -1⟩
  else if data.length = 0 then Except.ok ⟨-1, -1, -1⟩
  else
    match pyIdx data 0 with
    | Except.error e => Except.error e
    | Except.ok first =>
      match pyIdx data (-1) with
      | Except.error e => Except.error e
      | Except.ok last =>
        match pyIdx data 1 with
        | Except.error e => Except.error e
        | Except.ok second =>
          match pyIdx data (-2) with
          | Except.error e => Except.error e
          | Except.ok penult =>
            let min_freq := first.freq
            let max_freq := last.freq
            let lower_stepsize := second.freq - first.freq
            let upper_stepsize := last.freq - penult.freq
            if 2 * frequency + lower_stepsize < 2 * min_freq ∨
                2 * frequency - upper_stepsize > 2 * max_freq then
              Except.ok ⟨-1, -1, -1⟩
            else
              scanLoop frequency data data 0 max_freq

/-- Frequency of `data[j]` (with a dummy out-of-range default), used to state
specifications about the scan. -/
def dfreq (data : List Datapoint) (j : Nat) : Int :=
  (data.getD j dummyPoint).freq

/-- The distance `|data[j].freq - t|` tracked by the scan. -/
def scanDist (t : Int) (data : List Datapoint) (j : Nat) : Int :=
  |dfreq data j - t|

/-- The sortedness contract of the sample sequence: frequencies strictly
ascending. -/
def StrictAsc (data : List Datapoint) : Prop :=
  ∀ j, j < data.length → ∀ i, i < j → dfreq data i < dfreq data j

instance (data : List Datapoint) : Decidable (StrictAsc data) := by
  unfold StrictAsc
  infer_instance

/-- The example S11 sweep from `Marker/Settings.py` (`exampleData11`). -/
def exampleData11 : List Datapoint :=
  [⟨123000000, 89/100, -11/100⟩, ⟨123500000, 9/10, -1/10⟩,
   ⟨124000000, 91/100, -19/20⟩]

example : (findLocation 123456000 exampleData11).map (·.location) =
    Except.ok 1 := by rfl

example : findLocation 200000000 exampleData11 = Except.ok ⟨-1, -1, -1⟩ := by
  rfl

example : findLocation 100 [⟨100, 9/10, -1/10⟩] =
    Except.error "IndexError" := by rfl

example : findLocation 100 [⟨90, 0, 0⟩, ⟨110, 0, 0⟩] =
    Except.ok ⟨1, -1, 90⟩ := by rfl

theorem getD_of_get? (l : List Datapoint) (i : Nat) (x : Datapoint)
    (h : l.get? i = some x) : l.getD i dummyPoint = x := by
  have hi : i < l.length := by
    by_contra hle
    push_neg at hle
    rw [List.get?_eq_getElem?, List.getElem?_eq_none hle] at h
    cases h
  rw [List.get?_eq_getElem?, List.getElem?_eq_getElem hi] at h
  rw [List.getD_eq_getElem l dummyPoint hi]
  exact Option.some.inj h

theorem pyIdx_nat (l : List Datapoint) (k : Nat) (hk : k < l.length) :
    pyIdx l (k : Int) = Except.ok (l.getD k dummyPoint) := by
  have h0 : (0 : Int) ≤ (k : Int) := Int.natCast_nonneg k
  simp only [pyIdx, if_pos h0, Int.toNat_natCast]
  rw [List.get?_eq_getElem?, List.getElem?_eq_getElem hk,
    List.getD_eq_getElem l dummyPoint hk]

theorem pyIdx_negIdx (l : List Datapoint) (m : Nat) (h0 : 0 < m)
    (hm : m ≤ l.length) :
    pyIdx l (-(m : Int)) = Except.ok (l.getD (l.length - m) dummyPoint) := by
  have hneg : ¬ (0 : Int) ≤ -(m : Int) := by omega
  have hj : (0 : Int) ≤ (l.length : Int) + -(m : Int) := by omega
  have htn : ((l.length : Int) + -(m : Int)).toNat = l.length - m := by omega
  have hlt : l.length - m < l.length := by omega
  simp only [pyIdx, if_neg hneg, if_pos hj, htn]
  rw [List.get?_eq_getElem?, List.getElem?_eq_getElem hlt,
    List.getD_eq_getElem l dummyPoint hlt]

theorem drop_cons_facts (data rest : List Datapoint) (item : Datapoint)
    (i : Nat) (h : item :: rest = data.drop i) :
    i < data.length ∧ data.get? i = some item ∧ rest = data.drop (i + 1) := by
  refine ⟨?_, ?_, ?_⟩
  · by_contra hle
    push_neg at hle
    rw [List.drop_eq_nil_of_le hle] at h
    cases h
  · have h0 := List.get?_drop data i 0
    rw [← h] at h0
    simpa using h0.symm
  · have h1 : (data.drop i).drop 1 = data.drop (i + 1) := List.drop_drop 1 i data
    rw [← h] at h1
    simpa using h1

/-- What the scan loop produces when entered at position `i`: either the
distance first exceeds the running minimum at some position `k ≥ i` (the
`else` branch of the loop), or the loop runs off the end (the fall-through
after the loop). -/
def ScanOut (t : Int) (data : List Datapoint) (i : Nat) (r : FindResult) :
    Prop :=
  (∃ k, i ≤ k ∧ k < data.length ∧
     (∀ j, i ≤ j → j < k → scanDist t data j ≤ scanDist t data (j - 1)) ∧
     scanDist t data (k - 1) < scanDist t data k ∧
     r = ⟨(k : Int) - 1, dfreq data k,
          if 2 ≤ k then dfreq data (k - 2) else -1⟩) ∨
  ((∀ j, i ≤ j → j < data.length → scanDist t data j ≤ scanDist t data (j - 1)) ∧
   r = ⟨(data.length : Int) - 1, -1, dfreq data (data.length - 2)⟩)

theorem scanLoop_spec (t : Int) (data : List Datapoint)
    (hn : 2 ≤ data.length) :
    ∀ (l : List Datapoint) (i : Nat), 1 ≤ i → l = data.drop i →
      ∃ r, scanLoop t data l i (scanDist t data (i - 1)) = Except.ok r ∧
        ScanOut t data i r := by
  intro l
  induction l with
  | nil =>
    intro i hi hdrop
    refine ⟨⟨(data.length : Int) - 1, -1, dfreq data (data.length - 2)⟩,
      ?_, ?_⟩
    · simp only [scanLoop]
      rw [show (-2 : Int) = -((2 : Nat) : Int) by norm_num,
        pyIdx_negIdx data 2 (by omega) hn]
      rfl
    · right
      refine ⟨?_, rfl⟩
      intro j hij hjn
      have hlen : data.length ≤ i := List.drop_eq_nil_iff.mp hdrop.symm
      omega
  | cons item rest ih =>
    intro i hi hdrop
    obtain ⟨hilt, hget, hrest⟩ := drop_cons_facts data rest item i hdrop
    have hfreq : item.freq = dfreq data i := by
      rw [dfreq, getD_of_get? data i item hget]
    have hdi : |item.freq - t| = scanDist t data i := by
      rw [hfreq]; rfl
    by_cases hcmp : |item.freq - t| ≤ scanDist t data (i - 1)
    · have hcmp2 : scanDist t data i ≤ scanDist t data (i - 1) := by
        rw [← hdi]; exact hcmp
      have step : scanLoop t data (item :: rest) i (scanDist t data (i - 1)) =
          scanLoop t data rest (i + 1) (scanDist t data (i + 1 - 1)) := by
        simp only [scanLoop, hdi, if_pos hcmp2, Nat.add_sub_cancel]
      obtain ⟨r, heq, hout⟩ := ih (i + 1) (by omega) hrest
      refine ⟨r, by rw [step]; exact heq, ?_⟩
      rcases hout with ⟨k, hk1, hk2, hmono, hinc, hrform⟩ | ⟨hmono, hrform⟩
      · left
        refine ⟨k, by omega, hk2, ?_, hinc, hrform⟩
        intro j hij hjk
        rcases Nat.eq_or_lt_of_le hij with hji | hji
        · rw [← hji]
          rw [hdi] at hcmp
          exact hcmp
        · exact hmono j (by omega) hjk
      · right
        refine ⟨?_, hrform⟩
        intro j hij hjn
        rcases Nat.eq_or_lt_of_le hij with hji | hji
        · rw [← hji]
          rw [hdi] at hcmp
          exact hcmp
        · exact hmono j (by omega) hjn
    · refine ⟨⟨(i : Int) - 1, dfreq data i,
        if 2 ≤ i then dfreq data (i - 2) else -1⟩, ?_, ?_⟩
      · simp only [scanLoop, if_neg hcmp]
        by_cases h2 : 2 ≤ i
        · rw [if_pos (show (0 : Int) ≤ (i : Int) - 2 by omega)]
          rw [show ((i : Int) - 2) = ((i - 2 : Nat) : Int) by omega,
            pyIdx_nat data (i - 2) (by omega)]
          rw [if_pos hilt, hfreq, if_pos h2]
          rfl
        · rw [if_neg (show ¬ (0 : Int) ≤ (i : Int) - 2 by omega)]
          rw [if_pos hilt, hfreq, if_neg h2]
      · left
        push_neg at hcmp
        rw [hdi] at hcmp
        exact ⟨i, le_refl i, hilt, by intro j h1 h2; omega, hcmp, rfl⟩

theorem pyIdx_zero (l : List Datapoint) (h : 0 < l.length) :
    pyIdx l 0 = Except.ok (l.getD 0 dummyPoint) := by
  have := pyIdx_nat l 0 h
  simpa using this

theorem pyIdx_one (l : List Datapoint) (h : 1 < l.length) :
    pyIdx l 1 = Except.ok (l.getD 1 dummyPoint) := by
  have := pyIdx_nat l 1 h
  simpa using this

theorem pyIdx_neg_one (l : List Datapoint) (h : 0 < l.length) :
    pyIdx l (-1) = Except.ok (l.getD (l.length - 1) dummyPoint) := by
  have := pyIdx_negIdx l 1 (by omega) h
  simpa using this

theorem pyIdx_neg_two (l : List Datapoint) (h : 2 ≤ l.length) :
    pyIdx l (-2) = Except.ok (l.getD (l.length - 2) dummyPoint) := by
  have := pyIdx_negIdx l 2 (by omega) h
  simpa using this

theorem pyIdx_one_err (l : List Datapoint) (h : l.length = 1) :
    pyIdx l 1 = Except.error "IndexError" := by
  simp only [pyIdx, if_pos (by norm_num : (0 : Int) ≤ 1)]
  rw [show (1 : Int).toNat = 1 from rfl, List.get?_eq_getElem?,
    List.getElem?_eq_none (by omega)]

/-- With a single sample and a nonzero target, `findLocation` evaluates
`data[1].freq` (the lower step size) and raises `IndexError`. -/
theorem findLocation_one_sample (t : Int) (data : List Datapoint) (ht : t ≠ 0)
    (h1 : data.length = 1) :
    findLocation t data = Except.error "IndexError" := by
  simp only [findLocation, if_neg ht, if_neg (show ¬ data.length = 0 by omega)]
  rw [pyIdx_zero data (by omega), pyIdx_neg_one data (by omega),
    pyIdx_one_err data h1]

/-- For a nonzero target and at least two samples, `findLocation` is the
boundary guard followed by the scan, with the running minimum seeded by the
final (largest) frequency. -/
theorem findLocation_eq_big (t : Int) (data : List Datapoint) (ht : t ≠ 0)
    (hn : 2 ≤ data.length) :
    findLocation t data =
      if 2 * t + (dfreq data 1 - dfreq data 0) < 2 * dfreq data 0 ∨
          2 * t - (dfreq data (data.length - 1) - dfreq data (data.length - 2)) >
            2 * dfreq data (data.length - 1) then
        Except.ok ⟨-1, -1, -1⟩
      else scanLoop t data data 0 (dfreq data (data.length - 1)) := by
  simp only [findLocation, if_neg ht, if_neg (show ¬ data.length = 0 by omega)]
  rw [pyIdx_zero data (by omega), pyIdx_neg_one data (by omega),
    pyIdx_one data (by omega), pyIdx_neg_two data hn]
  rfl

theorem scanLoop_entry (t : Int) (data : List Datapoint) (hn : 2 ≤ data.length)
    (h0 : scanDist t data 0 ≤ dfreq data (data.length - 1)) :
    ∃ r, scanLoop t data data 0 (dfreq data (data.length - 1)) = Except.ok r ∧
      ScanOut t data 1 r := by
  obtain ⟨item, rest, hd⟩ : ∃ x l, data = x :: l := by
    cases data with
    | nil => simp at hn
    | cons a l => exact ⟨a, l, rfl⟩
  subst hd
  have hdi0 : |item.freq - t| = scanDist t (item :: rest) 0 := rfl
  have h0' : |item.freq - t| ≤ dfreq (item :: rest) ((item :: rest).length - 1) := by
    rw [hdi0]; exact h0
  obtain ⟨r, heq, hout⟩ := scanLoop_spec t (item :: rest) hn rest 1 (by omega) rfl
  refine ⟨r, ?_, hout⟩
  simp only [scanLoop, if_pos h0']
  rw [hdi0]
  exact heq

theorem scanLoop_entry_fail (t : Int) (data : List Datapoint)
    (hne : data ≠ [])
    (h0 : dfreq data (data.length - 1) < scanDist t data 0) :
    scanLoop t data data 0 (dfreq data (data.length - 1)) =
      Except.ok ⟨-1, dfreq data 0, -1⟩ := by
  obtain ⟨item, rest, hd⟩ : ∃ x l, data = x :: l := by
    cases data with
    | nil => exact absurd rfl hne
    | cons a l => exact ⟨a, l, rfl⟩
  subst hd
  have hdi0 : |item.freq - t| = scanDist t (item :: rest) 0 := rfl
  have h0' : ¬ |item.freq - t| ≤ dfreq (item :: rest) ((item :: rest).length - 1) := by
    rw [hdi0]; omega
  simp only [scanLoop, if_neg h0']
  rw [if_neg (show ¬ (0 : Int) ≤ ((0 : Nat) : Int) - 2 by norm_num)]
  rw [if_pos (show 0 < (item :: rest).length by simp)]
  rfl

theorem scanDist_chain (t : Int) (data : List Datapoint) (bound : Nat)
    (h : ∀ j, 1 ≤ j → j < bound →
      scanDist t data j ≤ scanDist t data (j - 1)) :
    ∀ a b, a ≤ b → b < bound → scanDist t data b ≤ scanDist t data a := by
  intro a b
  induction b with
  | zero =>
    intro hab _
    have ha : a = 0 := by omega
    rw [ha]
  | succ b ihb =>
    intro hab hb
    rcases Nat.eq_or_lt_of_le hab with he | hl
    · rw [he]
    · have h1 : scanDist t data (b + 1) ≤ scanDist t data b := by
        have := h (b + 1) (by omega) hb
        simpa using this
      exact le_trans h1 (ihb (by omega) (by omega))

/-- Once the scan distance strictly increases at `k`, every sample from `k`
on lies strictly beyond the target, so all later distances stay strictly
above the distance at `k - 1`. Needs the strictly ascending contract. -/
theorem scanDist_after_increase (t : Int) (data : List Datapoint)
    (hsort : StrictAsc data) (k : Nat) (hk1 : 1 ≤ k) (hkn : k < data.length)
    (hinc : scanDist t data (k - 1) < scanDist t data k) :
    ∀ j, k ≤ j → j < data.length →
      scanDist t data (k - 1) < scanDist t data j := by
  have hflt : dfreq data (k - 1) < dfreq data k := hsort k hkn (k - 1) (by omega)
  have hfk : t < dfreq data k := by
    by_contra hle
    push_neg at hle
    have e1 : scanDist t data k = t - dfreq data k := by
      rw [scanDist, abs_of_nonpos (by omega)]; ring
    have e2 : scanDist t data (k - 1) = t - dfreq data (k - 1) := by
      rw [scanDist, abs_of_nonpos (by omega)]; ring
    omega
  intro j hkj hjn
  have hfj : dfreq data k ≤ dfreq data j := by
    rcases Nat.eq_or_lt_of_le hkj with he | hl
    · rw [← he]
    · exact le_of_lt (hsort j hjn k hl)
  have e3 : scanDist t data j = dfreq data j - t := by
    rw [scanDist, abs_of_nonneg (by omega)]
  have e4 : scanDist t data k = dfreq data k - t := by
    rw [scanDist, abs_of_nonneg (by omega)]
  omega

/-- Semantic reading of `ScanOut`: the scan's reported index minimizes the
distance to the target, and every strictly later index has strictly larger
distance (so a tie between two indices is resolved to the later one). -/
theorem scanOut_nearest (t : Int) (data : List Datapoint)
    (hsort : StrictAsc data) (hn : 2 ≤ data.length) (r : FindResult)
    (hout : ScanOut t data 1 r) :
    ∃ m : Nat, r.location = (m : Int) ∧ m < data.length ∧
      (∀ j, j < data.length → scanDist t data m ≤ scanDist t data j) ∧
      (∀ j, m < j → j < data.length →
        scanDist t data m < scanDist t data j) := by
  rcases hout with ⟨k, hk1, hkn, hmono, hinc, hrform⟩ | ⟨hmono, hrform⟩
  · refine ⟨k - 1, ?_, by omega, ?_, ?_⟩
    · rw [hrform]
      show (k : Int) - 1 = ((k - 1 : Nat) : Int)
      omega
    · intro j hjn
      rcases le_or_lt j (k - 1) with hle | hlt
      · exact scanDist_chain t data k hmono j (k - 1) hle (by omega)
      · exact le_of_lt
          (scanDist_after_increase t data hsort k hk1 hkn hinc j (by omega) hjn)
    · intro j hmj hjn
      exact scanDist_after_increase t data hsort k hk1 hkn hinc j (by omega) hjn
  · refine ⟨data.length - 1, ?_, by omega, ?_, ?_⟩
    · rw [hrform]
      show (data.length : Int) - 1 = ((data.length - 1 : Nat) : Int)
      omega
    · intro j hjn
      exact scanDist_chain t data data.length hmono j (data.length - 1)
        (by omega) (by omega)
    · intro j hmj hjn
      exact absurd hjn (by omega)

theorem scanLoop_loc_bound (t : Int) (data : List Datapoint) :
    ∀ (l : List Datapoint) (i : Nat) (m : Int) (r : FindResult),
      i + l.length ≤ data.length →
      scanLoop t data l i m = Except.ok r →
      r.location = -1 ∨ (0 ≤ r.location ∧ r.location < (data.length : Int)) := by
  intro l
  induction l with
  | nil =>
    intro i m r hlen heq
    simp only [scanLoop] at heq
    cases hpy : pyIdx data (-2) with
    | error e => rw [hpy] at heq; cases heq
    | ok p =>
      rw [hpy] at heq
      have hl2 : 2 ≤ data.length := by
        by_contra hlt
        push_neg at hlt
        have herr : pyIdx data (-2) = Except.error "IndexError" := by
          simp only [pyIdx, if_neg (show ¬ (0 : Int) ≤ -2 by norm_num)]
          rw [if_neg (show ¬ (0 : Int) ≤ (data.length : Int) + -2 by omega)]
        rw [herr] at hpy
        cases hpy
      have hr := Except.ok.inj heq
      rw [← hr]
      right
      exact ⟨by show (0 : Int) ≤ (data.length : Int) - 1; omega,
        by show (data.length : Int) - 1 < (data.length : Int); omega⟩
  | cons x l ih =>
    intro i m r hlen heq
    simp only [scanLoop] at heq
    split at heq
    · exact ih (i + 1) _ r
        (by simp only [List.length_cons] at hlen; omega) heq
    · have hi : i < data.length := by
        simp only [List.length_cons] at hlen; omega
      split at heq
      · cases hpy : pyIdx data ((i : Int) - 2) with
        | error e => rw [hpy] at heq; cases heq
        | ok p =>
          rw [hpy] at heq
          have hr := Except.ok.inj heq
          rw [← hr]
          show ((i : Int) - 1 = -1) ∨
            (0 ≤ (i : Int) - 1 ∧ (i : Int) - 1 < (data.length : Int))
          omega
      · have hr := Except.ok.inj heq
        rw [← hr]
        show ((i : Int) - 1 = -1) ∨
          (0 ≤ (i : Int) - 1 ∧ (i : Int) - 1 < (data.length : Int))
        omega

/-- Claim C4: every normal termination of `findLocation` leaves the location
either unset (`-1`) or a valid index into the supplied sample sequence. -/
theorem claimC4_location_valid (t : Int) (data : List Datapoint)
    (r : FindResult) (h : findLocation t data = Except.ok r) :
    r.location = -1 ∨ (0 ≤ r.location ∧ r.location < (data.length : Int)) := by
  by_cases ht : t = 0
  · have hz : findLocation t data = Except.ok ⟨-1, -1, -1⟩ := by
      simp [findLocation, ht]
    rw [hz] at h
    rw [← Except.ok.inj h]
    left
    rfl
  by_cases hlen0 : data.length = 0
  · have hz : findLocation t data = Except.ok ⟨-1, -1, -1⟩ := by
      simp [findLocation, ht, hlen0]
    rw [hz] at h
    rw [← Except.ok.inj h]
    left
    rfl
  by_cases hlen1 : data.length = 1
  · rw [findLocation_one_sample t data ht hlen1] at h
    cases h
  have hn : 2 ≤ data.length := by omega
  rw [findLocation_eq_big t data ht hn] at h
  split at h
  · rw [← Except.ok.inj h]
    left
    rfl
  · exact scanLoop_loc_bound t data data 0
      (dfreq data (data.length - 1)) r (by omega) h

/-- Witness for C4 at the documented scenario (index 1 is valid for the
three-point example sweep). -/
theorem claimC4_witness :
    (⟨1, 124000000, 123000000⟩ : FindResult).location = -1 ∨
    (0 ≤ (⟨1, 124000000, 123000000⟩ : FindResult).location ∧
     (⟨1, 124000000, 123000000⟩ : FindResult).location <
       (exampleData11.length : Int)) :=
  claimC4_location_valid 123456000 exampleData11 ⟨1, 124000000, 123000000⟩
    (by rfl)

/-- The two-sample input on which the target sits exactly midway: both
indices tie for the minimal distance. -/
def twoTiedSamples : List Datapoint := [⟨90, 0, 0⟩, ⟨110, 0, 0⟩]

/-- Claim C1 counterexample: for the strictly ascending two-point sweep at
frequencies 90 and 110 and target 100 (inside the tolerant range), indices 0
and 1 tie for minimal distance; the claim requires the earliest tied index 0,
but `findLocation` returns index 1. -/
theorem claimC1_counterexample :
    StrictAsc twoTiedSamples ∧
    ¬ (2 * 100 + (dfreq twoTiedSamples 1 - dfreq twoTiedSamples 0) <
        2 * dfreq twoTiedSamples 0 ∨
       2 * 100 - (dfreq twoTiedSamples 1 - dfreq twoTiedSamples 0) >
        2 * dfreq twoTiedSamples 1) ∧
    scanDist 100 twoTiedSamples 0 = scanDist 100 twoTiedSamples 1 ∧
    (findLocation 100 twoTiedSamples).map (·.location) = Except.ok 1 :=
  ⟨by decide, by decide, by decide, by rfl⟩

/-- Claim C1 (amended): for a strictly ascending sweep of at least two
samples, a nonzero target inside the tolerant range whose distance to the
first sample does not exceed the last frequency (the scan's running-minimum
seed), `findLocation` returns an index of minimal distance to the target,
with ties resolved to the latest such index. -/
theorem claimC1_amended_nearest (t : Int) (data : List Datapoint)
    (hsort : StrictAsc data) (hn : 2 ≤ data.length) (ht : t ≠ 0)
    (hlo : ¬ 2 * t + (dfreq data 1 - dfreq data 0) < 2 * dfreq data 0)
    (hhi : ¬ 2 * t - (dfreq data (data.length - 1) -
        dfreq data (data.length - 2)) > 2 * dfreq data (data.length - 1))
    (h0 : scanDist t data 0 ≤ dfreq data (data.length - 1)) :
    ∃ (r : FindResult) (m : Nat),
      findLocation t data = Except.ok r ∧ r.location = (m : Int) ∧
      m < data.length ∧
      (∀ j, j < data.length → scanDist t data m ≤ scanDist t data j) ∧
      (∀ j, m < j → j < data.length →
        scanDist t data m < scanDist t data j) := by
  rw [findLocation_eq_big t data ht hn, if_neg (not_or.mpr ⟨hlo, hhi⟩)]
  obtain ⟨r, heq, hout⟩ := scanLoop_entry t data hn h0
  obtain ⟨m, h1, h2, h3, h4⟩ := scanOut_nearest t data hsort hn r hout
  exact ⟨r, m, heq, h1, h2, h3, h4⟩

/-- Witness for C1 at the spec's scenario: target 123456000 against the
example sweep resolves, and the resolved index is 1. -/
theorem claimC1_witness :
    (∃ (r : FindResult) (m : Nat),
      findLocation 123456000 exampleData11 = Except.ok r ∧
      r.location = (m : Int) ∧ m < exampleData11.length ∧
      (∀ j, j < exampleData11.length →
        scanDist 123456000 exampleData11 m ≤
          scanDist 123456000 exampleData11 j) ∧
      (∀ j, m < j → j < exampleData11.length →
        scanDist 123456000 exampleData11 m <
          scanDist 123456000 exampleData11 j)) ∧
    (findLocation 123456000 exampleData11).map (·.location) = Except.ok 1 :=
  ⟨claimC1_amended_nearest 123456000 exampleData11 (by decide) (by decide)
    (by decide) (by decide) (by decide) (by decide), by rfl⟩

/-- A single-sample sweep, a degenerate input that `findLocation` is required
(by the spec) to survive. -/
def singleSample : List Datapoint := [⟨100, 0, 0⟩]

/-- Claim C2, settled against the code for every degenerate input: for every
target, an empty sequence returns normally all-unset; for every single-sample
sequence, a zero target returns normally all-unset, but every nonzero target
evaluates `data[1].freq` (the lower step size) before any length-1 guard and
raises `IndexError` — the code never treats the margins of a one-sample
sequence as 0, contradicting the claim (and the spec's degenerate-input
contract), which is what makes this a code bug rather than a spec error. -/
theorem claimC2_theorem (t : Int) (p : Datapoint) (ht : t ≠ 0) :
    findLocation t ([] : List Datapoint) = Except.ok ⟨-1, -1, -1⟩ ∧
    findLocation 0 [p] = Except.ok ⟨-1, -1, -1⟩ ∧
    findLocation t [p] = Except.error "IndexError" :=
  ⟨by simp [findLocation, ht], by simp [findLocation],
    findLocation_one_sample t [p] ht rfl⟩

/-- Witness for C2 at the concrete failing input: target 100 against the
one-sample sweep at frequency 100 (and the two degenerate cases that do
return normally). -/
theorem claimC2_witness :
    findLocation 100 ([] : List Datapoint) = Except.ok ⟨-1, -1, -1⟩ ∧
    findLocation 0 singleSample = Except.ok ⟨-1, -1, -1⟩ ∧
    findLocation 100 singleSample = Except.error "IndexError" :=
  claimC2_theorem 100 ⟨100, 0, 0⟩ (by decide)

/-- Claim C3 counterexample: for the one-sample sweep at 100 and target 50,
the claim's out-of-range condition holds (`50 + 0 < 100`, margins being 0
for a single sample), so the claim demands the all-unset outcome, but the
code raises `IndexError` while computing the step sizes. -/
theorem claimC3_counterexample :
    ((50 : Int) + 0 < dfreq singleSample 0) ∧
    findLocation 50 singleSample = Except.error "IndexError" :=
  ⟨by decide, by rfl⟩

/-- Claim C3 (amended): the all-unset early return holds for a zero target,
for an empty sweep, and for out-of-tolerant-range targets whenever the sweep
has at least two samples (the step sizes are computed before the range test,
so a one-sample sweep raises instead). -/
theorem claimC3_amended (t : Int) (data : List Datapoint)
    (h : t = 0 ∨ data = [] ∨
      (2 ≤ data.length ∧
        (2 * t + (dfreq data 1 - dfreq data 0) < 2 * dfreq data 0 ∨
         2 * t - (dfreq data (data.length - 1) -
           dfreq data (data.length - 2)) >
           2 * dfreq data (data.length - 1)))) :
    findLocation t data = Except.ok ⟨-1, -1, -1⟩ := by
  rcases h with h0 | hemp | ⟨hn, hg⟩
  · simp [findLocation, h0]
  · by_cases h0 : t = 0
    · simp [findLocation, h0]
    · simp [findLocation, h0, hemp]
  · by_cases h0 : t = 0
    · simp [findLocation, h0]
    · rw [findLocation_eq_big t data h0 hn, if_pos hg]

/-- Witness for C3 at the spec's scenario: target 200000000 lies beyond the
upper tolerant bound of the example sweep, and the resolver returns the
all-unset outcome. -/
theorem claimC3_witness :
    findLocation 200000000 exampleData11 = Except.ok ⟨-1, -1, -1⟩ :=
  claimC3_amended 200000000 exampleData11 (by decide)

/-- Claim C5: on every successful resolution, `nextFrequency` is the
frequency right after the matched index (unset when the match is the last
index), and `previousFrequency` is the frequency two positions before the
first scan position `k` at which the distance started increasing (unset when
`k - 2 < 0`). -/
theorem claimC5_neighbors (t : Int) (data : List Datapoint) (r : FindResult)
    (m : Nat) (h : findLocation t data = Except.ok r)
    (hloc : r.location = (m : Int)) :
    (m = data.length - 1 → r.nextFrequency = -1) ∧
    (m + 1 < data.length → r.nextFrequency = dfreq data (m + 1)) ∧
    (∀ k, 1 ≤ k → k < data.length →
      scanDist t data (k - 1) < scanDist t data k →
      (∀ j, 1 ≤ j → j < k → scanDist t data j ≤ scanDist t data (j - 1)) →
      r.previousFrequency = if 2 ≤ k then dfreq data (k - 2) else -1) := by
  by_cases ht : t = 0
  · exfalso
    rw [ht] at h
    have hz : findLocation 0 data = Except.ok ⟨-1, -1, -1⟩ := by
      simp [findLocation]
    rw [hz] at h
    have hr := Except.ok.inj h
    rw [← hr] at hloc
    have hloc' : (-1 : Int) = (m : Int) := hloc
    omega
  by_cases hlen0 : data.length = 0
  · exfalso
    have hz : findLocation t data = Except.ok ⟨-1, -1, -1⟩ := by
      simp [findLocation, ht, hlen0]
    rw [hz] at h
    have hr := Except.ok.inj h
    rw [← hr] at hloc
    have hloc' : (-1 : Int) = (m : Int) := hloc
    omega
  by_cases hlen1 : data.length = 1
  · exfalso
    rw [findLocation_one_sample t data ht hlen1] at h
    cases h
  have hn : 2 ≤ data.length := by omega
  rw [findLocation_eq_big t data ht hn] at h
  split at h
  · exfalso
    have hr := Except.ok.inj h
    rw [← hr] at hloc
    have hloc' : (-1 : Int) = (m : Int) := hloc
    omega
  · by_cases h0 : scanDist t data 0 ≤ dfreq data (data.length - 1)
    · obtain ⟨r', heq, hout⟩ := scanLoop_entry t data hn h0
      rw [heq] at h
      have hr := Except.ok.inj h
      rw [hr] at hout
      rcases hout with ⟨k₀, hk1, hkn, hmono, hinc, hrform⟩ | ⟨hmono, hrform⟩
      · have hloc' : (k₀ : Int) - 1 = (m : Int) := by rw [hrform] at hloc; exact hloc
        have hmk : m = k₀ - 1 := by omega
        refine ⟨?_, ?_, ?_⟩
        · intro hml
          exfalso
          omega
        · intro hm1
          have hnx : r.nextFrequency = dfreq data k₀ := by rw [hrform]
          rw [hnx]
          congr 1
          omega
        · intro k hk1' hkn' hinc' hmono'
          have hkk : k = k₀ := by
            by_contra hne
            rcases Nat.lt_or_ge k k₀ with hlt | hge
            · have := hmono k (by omega) hlt
              omega
            · have hgt : k₀ < k := by omega
              have := hmono' k₀ (by omega) hgt
              omega
          rw [hrform]
          show (if 2 ≤ k₀ then dfreq data (k₀ - 2) else -1) =
            if 2 ≤ k then dfreq data (k - 2) else -1
          rw [hkk]
      · have hloc' : (data.length : Int) - 1 = (m : Int) := by
          rw [hrform] at hloc; exact hloc
        refine ⟨?_, ?_, ?_⟩
        · intro _
          rw [hrform]
        · intro hm1
          exfalso
          omega
        · intro k hk1' hkn' hinc' hmono'
          exfalso
          have := hmono k (by omega) hkn'
          omega
    · exfalso
      push_neg at h0
      rw [scanLoop_entry_fail t data (by intro hx; rw [hx] at hn; simp at hn)
        h0] at h
      have hr := Except.ok.inj h
      rw [← hr] at hloc
      have hloc' : (-1 : Int) = (m : Int) := hloc
      omega

/-- Witness for C5 at the scenario input: the resolver output is
`⟨1, 124000000, 123000000⟩` and `nextFrequency` is the sample after the
matched index. -/
theorem claimC5_witness :
    findLocation 123456000 exampleData11 =
      Except.ok ⟨1, 124000000, 123000000⟩ ∧
    (⟨1, 124000000, 123000000⟩ : FindResult).nextFrequency =
      dfreq exampleData11 2 :=
  ⟨by rfl,
    (claimC5_neighbors 123456000 exampleData11 ⟨1, 124000000, 123000000⟩ 1
      (by rfl) (by rfl)).2.1 (by decide)⟩

/-- Modelled from the spec: the `RFTools` module (`impedance`,
`serial_to_parallel`, `impedance_to_capacitance`, `impedance_to_inductance`,
the `vswr`/`phase`/`gain` properties, `qFactor` and `groupDelay`) is not part
of the two source files under verification; `updateLabels` uses these only as
black-box numeric functions of the resolved sample (section 4.3-4.4 of the
spec), so they are fields of this parameter structure, quantified over in
every theorem about `updateLabels`. Complex values are pairs of rationals. -/
structure RFToolsModel where
  impedance : Datapoint → ℚ × ℚ
  serial_to_parallel : ℚ × ℚ → ℚ × ℚ
  impedance_to_capacitance : ℚ × ℚ → Int → ℚ
  impedance_to_inductance : ℚ × ℚ → Int → ℚ
  vswr : Datapoint → ℚ
  phase : Datapoint → ℚ
  gain : Datapoint → ℚ
  qFactor : Datapoint → ℚ
  groupDelay : List Datapoint → Int → ℚ

/-- The per-metric display state of a `Marker` (the text labels keyed by
field name in `Widget.py`): `none` models an empty/unavailable label, `some v`
a label populated with the numeric value `v` (text formatting of the value is
an external concern per the spec's scope). -/
structure MarkerLabels where
  actualfreq : Option Int
  impedance : Option (ℚ × ℚ)
  admittance : Option (ℚ × ℚ)
  serr : Option ℚ
  serlc : Option ℚ
  serc : Option ℚ
  serl : Option ℚ
  parr : Option ℚ
  parlc : Option ℚ
  parc : Option ℚ
  parl : Option ℚ
  vswr : Option ℚ
  returnloss : Option ℚ
  s11q : Option ℚ
  s11phase : Option ℚ
  s11groupdelay : Option ℚ
  s21gain : Option ℚ
  s21phase : Option ℚ
  s21groupdelay : Option ℚ
  deriving DecidableEq, Repr

/-- `Marker.resetLabels` (`Widget.py` lines 277-296): every label cleared. -/
def resetLabels : MarkerLabels :=
  ⟨none, none, none, none, none, none, none, none, none, none, none, none,
   none, none, none, none, none, none, none⟩

/-- `Marker.updateLabels` (`Widget.py` lines 298-361) over the label state:
guard on the unresolved sentinel, index the S11-like sequence at the stored
location, populate every reflection-derived label, then bail out before the
transmission labels when the sequence lengths differ, else populate the
S21-derived labels, with the S21 group delay halved. -/
def updateLabels (rf : RFToolsModel) (location : Int)
    (s11data s21data : List Datapoint) (L : MarkerLabels) :
    Except String MarkerLabels :=
  if location = -1 then Except.ok L
  else
    match pyIdx s11data location with
    | Except.error e => Except.error e
    | Except.ok s11 =>
      let imp := rf.impedance s11
      let cap := rf.impedance_to_capacitance imp s11.freq
      let ind := rf.impedance_to_inductance imp s11.freq
      let imp_p := rf.serial_to_parallel imp
      let cap_p := rf.impedance_to_capacitance imp_p s11.freq
      let ind_p := rf.impedance_to_inductance imp_p s11.freq
      let x_str := if imp.2 < 0 then cap else ind
      let x_p_str := if imp_p.2 < 0 then cap_p else ind_p
      let L1 : MarkerLabels :=
        { L with
          actualfreq := some s11.freq
          impedance := some imp
          serr := some imp.1
          serlc := some x_str
          serc := some cap
          serl := some ind
          admittance := some imp_p
          parr := some imp_p.1
          parlc := some x_p_str
          parc := some cap_p
          parl := some ind_p
          vswr := some (rf.vswr s11)
          s11phase := some (rf.phase s11)
          s11q := some (rf.qFactor s11)
          returnloss := some (rf.gain s11)
          s11groupdelay := some (rf.groupDelay s11data location) }
      if s21data.length ≠ s11data.length then Except.ok L1
      else
        match pyIdx s21data location with
        | Except.error e => Except.error e
        | Except.ok s21 =>
          Except.ok
            { L1 with
              s21phase := some (rf.phase s21)
              s21gain := some (rf.gain s21)
              s21groupdelay := some (rf.groupDelay s21data location / 2) }

/-- Claim C10: with the unresolved sentinel location `-1`, `updateLabels`
returns the label state unchanged for every pair of sample sequences (of any
lengths, including empty), reading no sample data. -/
theorem claimC10_noop (rf : RFToolsModel) (s11data s21data : List Datapoint)
    (L : MarkerLabels) :
    updateLabels rf (-1) s11data s21data L = Except.ok L := rfl

/-- The label state after the reflection-derived assignments of
`updateLabels` (everything written before the `s21` length guard), spelled
out for the theorems below; definitionally equal to the intermediate record
of `updateLabels` for resolved sample `p`. -/
def reflectionLabels (rf : RFToolsModel) (s11data : List Datapoint)
    (location : Int) (p : Datapoint) (L : MarkerLabels) : MarkerLabels :=
  { L with
    actualfreq := some p.freq
    impedance := some (rf.impedance p)
    serr := some (rf.impedance p).1
    serlc := some (if (rf.impedance p).2 < 0 then
      rf.impedance_to_capacitance (rf.impedance p) p.freq else
      rf.impedance_to_inductance (rf.impedance p) p.freq)
    serc := some (rf.impedance_to_capacitance (rf.impedance p) p.freq)
    serl := some (rf.impedance_to_inductance (rf.impedance p) p.freq)
    admittance := some (rf.serial_to_parallel (rf.impedance p))
    parr := some (rf.serial_to_parallel (rf.impedance p)).1
    parlc := some (if (rf.serial_to_parallel (rf.impedance p)).2 < 0 then
      rf.impedance_to_capacitance (rf.serial_to_parallel (rf.impedance p))
        p.freq else
      rf.impedance_to_inductance (rf.serial_to_parallel (rf.impedance p))
        p.freq)
    parc := some (rf.impedance_to_capacitance
      (rf.serial_to_parallel (rf.impedance p)) p.freq)
    parl := some (rf.impedance_to_inductance
      (rf.serial_to_parallel (rf.impedance p)) p.freq)
    vswr := some (rf.vswr p)
    s11phase := some (rf.phase p)
    s11q := some (rf.qFactor p)
    returnloss := some (rf.gain p)
    s11groupdelay := some (rf.groupDelay s11data location) }

/-- Claim C6: with a resolved location and S11/S21 sequences of different
lengths, `updateLabels` leaves the three transmission labels untouched while
populating every reflection-derived label from the resolved sample. -/
theorem claimC6_mismatch (rf : RFToolsModel) (location : Int)
    (s11data s21data : List Datapoint) (L : MarkerLabels) (p : Datapoint)
    (h0 : 0 ≤ location) (hp : pyIdx s11data location = Except.ok p)
    (hlen : s21data.length ≠ s11data.length) :
    ∃ L2, updateLabels rf location s11data s21data L = Except.ok L2 ∧
      L2.s21gain = L.s21gain ∧ L2.s21phase = L.s21phase ∧
      L2.s21groupdelay = L.s21groupdelay ∧
      L2.actualfreq = some p.freq ∧
      L2.impedance = some (rf.impedance p) ∧
      L2.admittance = some (rf.serial_to_parallel (rf.impedance p)) ∧
      L2.serr = some (rf.impedance p).1 ∧
      L2.serlc = some (if (rf.impedance p).2 < 0 then
        rf.impedance_to_capacitance (rf.impedance p) p.freq else
        rf.impedance_to_inductance (rf.impedance p) p.freq) ∧
      L2.serc = some (rf.impedance_to_capacitance (rf.impedance p) p.freq) ∧
      L2.serl = some (rf.impedance_to_inductance (rf.impedance p) p.freq) ∧
      L2.parr = some (rf.serial_to_parallel (rf.impedance p)).1 ∧
      L2.parlc = some (if (rf.serial_to_parallel (rf.impedance p)).2 < 0 then
        rf.impedance_to_capacitance (rf.serial_to_parallel (rf.impedance p))
          p.freq else
        rf.impedance_to_inductance (rf.serial_to_parallel (rf.impedance p))
          p.freq) ∧
      L2.parc = some (rf.impedance_to_capacitance
        (rf.serial_to_parallel (rf.impedance p)) p.freq) ∧
      L2.parl = some (rf.impedance_to_inductance
        (rf.serial_to_parallel (rf.impedance p)) p.freq) ∧
      L2.vswr = some (rf.vswr p) ∧
      L2.returnloss = some (rf.gain p) ∧
      L2.s11q = some (rf.qFactor p) ∧
      L2.s11phase = some (rf.phase p) ∧
      L2.s11groupdelay = some (rf.groupDelay s11data location) := by
  have hne : ¬ location = -1 := by omega
  have heq : updateLabels rf location s11data s21data L =
      Except.ok (reflectionLabels rf s11data location p L) := by
    simp only [updateLabels, if_neg hne, hp]
    rw [if_pos hlen]
    rfl
  exact ⟨reflectionLabels rf s11data location p L, heq, rfl, rfl, rfl, rfl,
    rfl, rfl, rfl, rfl, rfl, rfl, rfl, rfl, rfl, rfl, rfl, rfl, rfl, rfl,
    rfl⟩

/-- A trivial instantiation of the black-box RFTools functions, used only to
witness that the `updateLabels` theorems have satisfiable hypotheses. -/
def trivialRF : RFToolsModel :=
  ⟨fun _ => (0, 0), fun z => z, fun _ _ => 0, fun _ _ => 0, fun _ => 0,
   fun _ => 0, fun _ => 0, fun _ => 0, fun _ _ => 0⟩

/-- Witness for C6: a one-sample S11 sweep with an empty S21 sweep at
location 0. -/
theorem claimC6_witness :
    ∃ L2, updateLabels trivialRF 0 singleSample [] resetLabels =
        Except.ok L2 ∧
      L2.s21gain = resetLabels.s21gain ∧
      L2.s21phase = resetLabels.s21phase ∧
      L2.s21groupdelay = resetLabels.s21groupdelay ∧
      L2.actualfreq = some (⟨100, 0, 0⟩ : Datapoint).freq ∧
      L2.impedance = some (trivialRF.impedance ⟨100, 0, 0⟩) ∧
      L2.admittance = some (trivialRF.serial_to_parallel
        (trivialRF.impedance ⟨100, 0, 0⟩)) ∧
      L2.serr = some (trivialRF.impedance ⟨100, 0, 0⟩).1 ∧
      L2.serlc = some (if (trivialRF.impedance ⟨100, 0, 0⟩).2 < 0 then
        trivialRF.impedance_to_capacitance
          (trivialRF.impedance ⟨100, 0, 0⟩) (⟨100, 0, 0⟩ : Datapoint).freq
        else trivialRF.impedance_to_inductance
          (trivialRF.impedance ⟨100, 0, 0⟩)
          (⟨100, 0, 0⟩ : Datapoint).freq) ∧
      L2.serc = some (trivialRF.impedance_to_capacitance
        (trivialRF.impedance ⟨100, 0, 0⟩) (⟨100, 0, 0⟩ : Datapoint).freq) ∧
      L2.serl = some (trivialRF.impedance_to_inductance
        (trivialRF.impedance ⟨100, 0, 0⟩) (⟨100, 0, 0⟩ : Datapoint).freq) ∧
      L2.parr = some (trivialRF.serial_to_parallel
        (trivialRF.impedance ⟨100, 0, 0⟩)).1 ∧
      L2.parlc = some (if (trivialRF.serial_to_parallel
          (trivialRF.impedance ⟨100, 0, 0⟩)).2 < 0 then
        trivialRF.impedance_to_capacitance
          (trivialRF.serial_to_parallel (trivialRF.impedance ⟨100, 0, 0⟩))
          (⟨100, 0, 0⟩ : Datapoint).freq
        else trivialRF.impedance_to_inductance
          (trivialRF.serial_to_parallel (trivialRF.impedance ⟨100, 0, 0⟩))
          (⟨100, 0, 0⟩ : Datapoint).freq) ∧
      L2.parc = some (trivialRF.impedance_to_capacitance
        (trivialRF.serial_to_parallel (trivialRF.impedance ⟨100, 0, 0⟩))
        (⟨100, 0, 0⟩ : Datapoint).freq) ∧
      L2.parl = some (trivialRF.impedance_to_inductance
        (trivialRF.serial_to_parallel (trivialRF.impedance ⟨100, 0, 0⟩))
        (⟨100, 0, 0⟩ : Datapoint).freq) ∧
      L2.vswr = some (trivialRF.vswr ⟨100, 0, 0⟩) ∧
      L2.returnloss = some (trivialRF.gain ⟨100, 0, 0⟩) ∧
      L2.s11q = some (trivialRF.qFactor ⟨100, 0, 0⟩) ∧
      L2.s11phase = some (trivialRF.phase ⟨100, 0, 0⟩) ∧
      L2.s11groupdelay = some (trivialRF.groupDelay singleSample 0) :=
  claimC6_mismatch trivialRF 0 singleSample [] resetLabels ⟨100, 0, 0⟩
    (by norm_num) (by rfl) (by decide)

/-- Claim C7: with a resolved location and equal-length sequences, the
reported S21 group delay is exactly half of the group-delay formula (the same
black-box `groupDelay` used unhalved for S11) applied to the S21-like
sequence at the resolved location. -/
theorem claimC7_half_groupdelay (rf : RFToolsModel) (location : Int)
    (s11data s21data : List Datapoint) (L : MarkerLabels) (p q : Datapoint)
    (h0 : 0 ≤ location) (hp : pyIdx s11data location = Except.ok p)
    (hq : pyIdx s21data location = Except.ok q)
    (hlen : s21data.length = s11data.length) :
    ∃ L2, updateLabels rf location s11data s21data L = Except.ok L2 ∧
      L2.s21groupdelay = some (rf.groupDelay s21data location / 2) ∧
      L2.s11groupdelay = some (rf.groupDelay s11data location) := by
  have hne : ¬ location = -1 := by omega
  have heq : updateLabels rf location s11data s21data L =
      Except.ok { reflectionLabels rf s11data location p L with
        s21phase := some (rf.phase q)
        s21gain := some (rf.gain q)
        s21groupdelay := some (rf.groupDelay s21data location / 2) } := by
    simp only [updateLabels, if_neg hne, hp]
    rw [if_neg (by omega : ¬ s21data.length ≠ s11data.length)]
    simp only [hq]
    rfl
  exact ⟨_, heq, rfl, rfl⟩

/-- Witness for C7: equal one-sample sweeps at location 0. -/
theorem claimC7_witness :
    ∃ L2, updateLabels trivialRF 0 singleSample singleSample resetLabels =
        Except.ok L2 ∧
      L2.s21groupdelay = some (trivialRF.groupDelay singleSample 0 / 2) ∧
      L2.s11groupdelay = some (trivialRF.groupDelay singleSample 0) :=
  claimC7_half_groupdelay trivialRF 0 singleSample singleSample resetLabels
    ⟨100, 0, 0⟩ ⟨100, 0, 0⟩ (by norm_num) (by rfl) (by rfl) rfl

/-- The portion of a `Marker`'s state relevant to resolution and metric
computation: the target frequency, the resolver outputs, and the label
state. -/
structure MarkerState where
  frequency : Int
  location : Int
  nextFrequency : Int
  previousFrequency : Int
  labels : MarkerLabels
  deriving DecidableEq, Repr

/-- The externally observable notification of a `Marker`: the `updated`
signal (it carries the marker's identity; with a single marker under
consideration the payload is omitted). -/
inductive MarkerEvent where
  | updated
  deriving DecidableEq, Repr

/-- `Marker.setFrequency` (`Widget.py` lines 203-205): parse the text into
`self.frequency` and emit `updated`. `RFTools.parseFrequency` is not among
the source files under verification, so the parser is a parameter. The
method body contains no call to `findLocation` or `updateLabels`. The
returned list is the sequence of signals emitted during the call, in order,
after all state writes of the call. -/
def setFrequency (parseFrequency : String → Int) (st : MarkerState)
    (text : String) : MarkerState × List MarkerEvent :=
  ({ st with frequency := parseFrequency text }, [MarkerEvent.updated])

/-- Claim C8 counterexample: starting from an unresolved marker, a
`setFrequency` call that parses to 123456000 fires `updated` while the
marker's location is still the unresolved sentinel `-1`, although resolution
of 123456000 against the current example data would give index 1 — so the
resolution has not completed (indeed has not begun) when the notification
fires, and a listener observes metrics stale with respect to the new
frequency. -/
theorem claimC8_counterexample :
    (setFrequency (fun _ => 123456000) ⟨0, -1, -1, -1, resetLabels⟩
      "123456000").2 = [MarkerEvent.updated] ∧
    (setFrequency (fun _ => 123456000) ⟨0, -1, -1, -1, resetLabels⟩
      "123456000").1.frequency = 123456000 ∧
    (setFrequency (fun _ => 123456000) ⟨0, -1, -1, -1, resetLabels⟩
      "123456000").1.location = -1 ∧
    (findLocation 123456000 exampleData11).map (·.location) = Except.ok 1 ∧
    (-1 : Int) ≠ 1 :=
  ⟨rfl, rfl, rfl, by rfl, by decide⟩

/-- Claim C8 (amended): `setFrequency` stores the parsed frequency and then
fires the `updated` signal synchronously; it performs no resolution and no
metric computation, so at emission time the location, the neighbor
frequencies and every metric label are unchanged from before the call
(re-resolution is the responsibility of listeners reacting to the signal). -/
theorem claimC8_amended (parseFrequency : String → Int) (st : MarkerState)
    (text : String) :
    setFrequency parseFrequency st text =
      ({ st with frequency := parseFrequency text }, [MarkerEvent.updated]) ∧
    (setFrequency parseFrequency st text).1.location = st.location ∧
    (setFrequency parseFrequency st text).1.nextFrequency =
      st.nextFrequency ∧
    (setFrequency parseFrequency st text).1.previousFrequency =
      st.previousFrequency ∧
    (setFrequency parseFrequency st text).1.labels = st.labels :=
  ⟨rfl, rfl, rfl, rfl, rfl⟩

/-- A heap of Python list objects holding field-selection contents: `store`
maps an object reference to the list's current contents, `next` is the next
fresh reference. Reference semantics are needed because
`Marker.fieldSelection` is a Python list shared by reference. -/
structure PyHeap where
  store : Nat → List String
  next : Nat

/-- The slice of a `Marker` instance's attribute dictionary relevant to
field selection: `none` when the instance has no own `fieldSelection` entry
(attribute lookup then falls back to the class attribute), `some r` once
`setFieldSelection` has installed an instance attribute referencing list
object `r`. -/
structure PyMarker where
  fieldSelectionRef : Option Nat
  deriving DecidableEq

/-- The class attribute `fieldSelection = []` of `Marker` (`Widget.py` line
86): a single list object attached to the class, allocated once; reference 0
in the initial heap. -/
def classFieldSelection : Nat := 0

/-- The heap at class-creation time: the class-level list is empty and is
the only allocated object. -/
def initHeap : PyHeap := ⟨fun _ => [], 1⟩

/-- `Marker.__init__` never assigns `self.fieldSelection`, so a freshly
constructed instance has no own entry and attribute lookup reads the class
attribute. -/
def freshMarker : PyMarker := ⟨none⟩

/-- Python attribute lookup `marker.fieldSelection`: the contents of the
instance's own list if present, else of the class-level list. -/
def readFieldSelection (h : PyHeap) (m : PyMarker) : List String :=
  h.store (m.fieldSelectionRef.getD classFieldSelection)

/-- The list object that `marker.fieldSelection` resolves to; in-place
mutation such as `marker.fieldSelection.append(x)` acts on this object. -/
def fieldSelectionTarget (m : PyMarker) : Nat :=
  m.fieldSelectionRef.getD classFieldSelection

/-- In-place mutation of a Python list object (`lst.append(x)`). -/
def listAppend (h : PyHeap) (r : Nat) (x : String) : PyHeap :=
  ⟨fun s => if s = r then h.store r ++ [x] else h.store s, h.next⟩

/-- `Marker.setFieldSelection` (`Widget.py` lines 207-209):
`self.fieldSelection = fields.copy()` allocates a fresh list holding a
snapshot of the argument's current contents and installs it as the
instance's own attribute (`buildForm` is presentation only and out of
scope). -/
def setFieldSelection (h : PyHeap) (_m : PyMarker) (fieldsRef : Nat) :
    PyHeap × PyMarker :=
  (⟨fun r => if r = h.next then h.store fieldsRef else h.store r,
     h.next + 1⟩,
   ⟨some h.next⟩)

/-- Claim C9 counterexample: two freshly constructed markers (both without an
own `fieldSelection` entry) resolve the attribute to the same class-level
list; an in-place mutation through the first marker's attribute changes the
selection observed by the second marker from `[]` to `["vswr"]`, so the
selections are not independent per-instance state and a mutable default list
is shared across instances via the entity type. -/
theorem claimC9_counterexample :
    readFieldSelection initHeap freshMarker = [] ∧
    readFieldSelection
      (listAppend initHeap (fieldSelectionTarget freshMarker) "vswr")
      freshMarker = ["vswr"] :=
  ⟨rfl, rfl⟩

/-- Claim C9 (amended): `setFieldSelection` installs a fresh per-instance
copy of the argument's contents, after which that instance's selection is
isolated: later in-place mutation of the caller's list, in-place mutation of
the class-level default, and another instance's `setFieldSelection` all
leave it unchanged. (Only instances that never called `setFieldSelection`
share the class-level default list.) -/
theorem claimC9_amended (h : PyHeap) (m1 m2 : PyMarker) (fieldsRef g : Nat)
    (x y : String) (hf : fieldsRef < h.next)
    (hc : classFieldSelection < h.next) :
    readFieldSelection (setFieldSelection h m1 fieldsRef).1
      (setFieldSelection h m1 fieldsRef).2 = h.store fieldsRef ∧
    readFieldSelection
      (listAppend (setFieldSelection h m1 fieldsRef).1 fieldsRef x)
      (setFieldSelection h m1 fieldsRef).2 = h.store fieldsRef ∧
    readFieldSelection
      (listAppend (setFieldSelection h m1 fieldsRef).1 classFieldSelection y)
      (setFieldSelection h m1 fieldsRef).2 = h.store fieldsRef ∧
    readFieldSelection
      (setFieldSelection (setFieldSelection h m1 fieldsRef).1 m2 g).1
      (setFieldSelection h m1 fieldsRef).2 = h.store fieldsRef := by
  have hne1 : ¬ (h.next = fieldsRef) := by omega
  have hne2 : ¬ (h.next = classFieldSelection) := by omega
  have hne3 : ¬ (h.next = h.next + 1) := by omega
  refine ⟨?_, ?_, ?_, ?_⟩
  · simp [setFieldSelection, readFieldSelection]
  · simp [setFieldSelection, readFieldSelection, listAppend, hne1]
  · simp [setFieldSelection, readFieldSelection, listAppend, hne2]
  · simp [setFieldSelection, readFieldSelection, hne3]

/-- A concrete two-object heap: the class-level empty list at reference 0
and a caller-owned list `["impedance"]` at reference 1. -/
def demoHeap : PyHeap :=
  ⟨fun r => if r = 1 then ["impedance"] else [], 2⟩

/-- Witness for C9 (amended) on the concrete two-object heap. -/
theorem claimC9_witness :
    readFieldSelection (setFieldSelection demoHeap freshMarker 1).1
      (setFieldSelection demoHeap freshMarker 1).2 = demoHeap.store 1 ∧
    readFieldSelection
      (listAppend (setFieldSelection demoHeap freshMarker 1).1 1 "vswr")
      (setFieldSelection demoHeap freshMarker 1).2 = demoHeap.store 1 ∧
    readFieldSelection
      (listAppend (setFieldSelection demoHeap freshMarker 1).1
        classFieldSelection "serr")
      (setFieldSelection demoHeap freshMarker 1).2 = demoHeap.store 1 ∧
    readFieldSelection
      (setFieldSelection (setFieldSelection demoHeap freshMarker 1).1
        freshMarker 0).1
      (setFieldSelection demoHeap freshMarker 1).2 = demoHeap.store 1 :=
  claimC9_amended demoHeap freshMarker freshMarker 1 0 "vswr" "serr"
    (by decide) (by decide)
